import Mathlib

/-!
Verification development for the PopClock granular simulation engine
(`popclock.cpp`): dynamic particles, the static-mass cellular automaton,
and the conversions between the two representations.

Real-valued quantities (C++ `double`) are modelled as exact rationals.
The C++ implicit `double -> int` conversion at the
`std::function<bool(int,int)>` obstacle boundary truncates toward zero,
modelled by `ratTrunc`.  `Uint32` colors are modelled as `Nat` (0 = empty).
The shared `std::default_random_engine` plus its two distributions are
modelled as a pair of draw streams with a single advancing cursor.
-/

/-- Truncation toward zero of a rational, the C++ `double -> int` conversion
applied when a floating coordinate is passed to an `int` parameter. -/
def ratTrunc (q : ℚ) : ℤ := if q < 0 then ⌈q⌉ else ⌊q⌋

/-- The shared random source: `random_frac` draws come from `fracs`
(uniform `[0,1)` in the source), `random_coinflip` draws from `flips`
(uniform `{0,1}`); `idx` is the position in the shared engine stream. -/
structure RNG where
  fracs : ℕ → ℚ
  flips : ℕ → Bool
  idx : ℕ

/-- One draw from `random_frac(generator)`. -/
def RNG.nextFrac (r : RNG) : ℚ × RNG :=
  (r.fracs r.idx, { r with idx := r.idx + 1 })

/-- One draw from `random_coinflip(generator)` (`true` = nonzero). -/
def RNG.nextFlip (r : RNG) : Bool × RNG :=
  (r.flips r.idx, { r with idx := r.idx + 1 })

/-- `PopClock::Particle`. -/
structure Particle where
  active : Bool
  x : ℚ
  y : ℚ
  dx : ℚ
  dy : ℚ
  tv : ℚ
  color : ℕ
deriving DecidableEq

/-- `Particle()` leaves everything but `active` uninitialized; the model
picks zeros (every later use overwrites the fields via `pop`). -/
instance : Inhabited Particle := ⟨⟨false, 0, 0, 0, 0, 0, 0⟩⟩

/-- `k_gravity = 0.01`. -/
def Particle.k_gravity : ℚ := 1 / 100
/-- `k_friction = 0.8`. -/
def Particle.k_friction : ℚ := 4 / 5
/-- `k_elasticity = 0.5`. -/
def Particle.k_elasticity : ℚ := 1 / 2
/-- `k_movement_epsilon = 0.1`. -/
def Particle.k_movement_epsilon : ℚ := 1 / 10

/-- `Particle::pop`: explode alive with random movement.  Draw order follows
the source: `tv`, `dx` fraction, `dx` coinflip, `dy` fraction, `dy` coinflip. -/
def Particle.pop (r : RNG) (x y : ℚ) (c : ℕ) : Particle × RNG :=
  let f1 := r.nextFrac
  let tv := f1.1 * (7 / 10) + 3 / 10
  let f2 := f1.2.nextFrac
  let dx0 := f2.1 * tv
  let b1 := f2.2.nextFlip
  let dx := if b1.1 then -dx0 else dx0
  let f3 := b1.2.nextFrac
  let dy0 := f3.1 * tv
  let b2 := f3.2.nextFlip
  let dy := if b2.1 then -dy0 else dy0
  ({ active := true, x := x, y := y, dx := dx, dy := dy, tv := tv, color := c }, b2.2)

/-- `Particle::stop`. -/
def Particle.stop (p : Particle) : Particle := { p with active := false }

/-- `Particle::simulate`: one physics tick against an obstacle query.
Returns the updated particle and the activity judgement
(`false` = settled, convert to the static layer). -/
def Particle.simulate (obs : ℤ → ℤ → Bool) (p : Particle) : Particle × Bool :=
  let xp := p.x + p.dx
  let yp := p.y + p.dy
  let hit := obs (ratTrunc xp) (ratTrunc yp)
  let blocked_x := hit && obs (ratTrunc xp) (ratTrunc p.y)
  let blocked_y := hit && obs (ratTrunc p.x) (ratTrunc yp)
  let dx1 := if blocked_x then p.dx * (-Particle.k_elasticity) else p.dx
  let xp1 := if blocked_x then p.x else xp
  let dy1 := if blocked_y then p.dy * (-Particle.k_elasticity) else p.dy
  let dx2 := if blocked_y then dx1 * Particle.k_friction else dx1
  let yp1 := if blocked_y then p.y else yp
  let moving := decide (Particle.k_movement_epsilon < |dx2|) ||
    decide (Particle.k_movement_epsilon < |dy1|)
  let can_fall := !(obs (ratTrunc xp1) (ratTrunc (yp1 + 1)))
  let making_progress := !blocked_x || !blocked_y
  let dy2 := min p.tv (dy1 + Particle.k_gravity)
  ({ p with
     x := xp1,
     y := yp1,
     dx := dx2,
     dy := dy2 },
   (moving || can_fall) && making_progress)

/-- `PopClock::StaticParticles`: the static-mass grid.  `color_` is row-major
(`x + y*w_`), 0 = empty; `needs_sim_up_to` is the dirty-region cursor. -/
structure StaticParticles where
  color_ : List ℕ
  w_ : ℤ
  h_ : ℤ
  needs_sim_up_to : ℤ
deriving DecidableEq

/-- `StaticParticles::unsafe_at` (raw row-major read). -/
def StaticParticles.unsafe_at (sp : StaticParticles) (x y : ℤ) : ℕ :=
  sp.color_.getD (x + y * sp.w_).toNat 0

/-- `StaticParticles::get`: zero outside bounds. -/
def StaticParticles.get (sp : StaticParticles) (x y : ℤ) : ℕ :=
  if x < 0 ∨ sp.w_ ≤ x ∨ y < 0 ∨ sp.h_ ≤ y then 0 else sp.unsafe_at x y

/-- `StaticParticles::set`: no-op outside bounds; otherwise writes the cell
and lowers the dirty cursor to cover the row above. -/
def StaticParticles.set (sp : StaticParticles) (x y : ℤ) (c : ℕ) : StaticParticles :=
  if x < 0 ∨ sp.w_ ≤ x ∨ y < 0 ∨ sp.h_ ≤ y then sp
  else { sp with
         color_ := sp.color_.set (x + y * sp.w_).toNat c,
         needs_sim_up_to := min sp.needs_sim_up_to (max 0 (y - 1)) }

/-- The `PopClock` driver state needed by the engine: the particle pool and
the shared random source. -/
structure PopClock where
  particles : List Particle
  have_live_particles : Bool
  rng : RNG

/-- `PopClock::find_free_particle`: append a fresh slot, return its index. -/
def PopClock.find_free_particle (h : PopClock) : ℕ × PopClock :=
  (h.particles.length,
   { h with
     particles := h.particles ++ [default],
     have_live_particles := true })

/-- In-place mutation of `particles[i]` (e.g. `particles[i].dx *= 0.25`). -/
def PopClock.modifyParticle (h : PopClock) (i : ℕ) (f : Particle → Particle) : PopClock :=
  { h with particles := h.particles.set i (f (h.particles.getD i default)) }

/-- `StaticParticles::try_pop`: convert the mass at `(x, y)` into a freshly
allocated dynamic particle (forcing downward momentum when `down`) and clear
the cell.  Returns the new particle's index and both updated states. -/
def tryPop (h : PopClock) (sp : StaticParticles) (x y : ℤ) (here : ℕ) (down : Bool) :
    ℕ × PopClock × StaticParticles :=
  let ih := h.find_free_particle
  let i := ih.1
  let h1 := ih.2
  let pr := Particle.pop h1.rng (x : ℚ) (y : ℚ) here
  let p := if down then { pr.1 with dy := |pr.1.dy| } else pr.1
  let h2 := { h1 with
              particles := h1.particles.set i p,
              rng := pr.2 }
  (i, h2, sp.set x y 0)

/-- `StaticParticles::simulate_one`: one automaton rule application at an
occupied cell (`here` nonzero): crush, fall, or angle-of-repose spill.
Returns whether it did anything. -/
def StaticParticles.simulate_one (h : PopClock) (sp : StaticParticles)
    (obs : ℤ → ℤ → Bool) (drop_bottom : Bool) (x y : ℤ) (here : ℕ) :
    PopClock × StaticParticles × Bool :=
  if obs x y then (h, sp.set x y 0, true) else
  let fall := if sp.h_ ≤ y + 1 then drop_bottom
    else decide (sp.get x (y + 1) = 0) && !(obs x (y + 1))
  if fall then
    let r := tryPop h sp x y here true
    (r.2.1.modifyParticle r.1 (fun p => { p with dx := p.dx * (1 / 4) }), r.2.2, true)
  else
    let down_left := sp.get (x - 1) (y + 1)
    let down_left_obstacle := if x = 0 then true else obs (x - 1) (y + 1)
    let down_right := sp.get (x + 1) (y + 1)
    let down_right_obstacle := if x = sp.w_ - 1 then true else obs (x + 1) (y + 1)
    if decide (down_left = 0) && !down_left_obstacle then
      if decide (down_right = 0) && !down_right_obstacle then
        let r := tryPop h sp x y here true
        (r.2.1, r.2.2, true)
      else
        let r := tryPop h sp x y here true
        (r.2.1.modifyParticle r.1 (fun p => { p with dx := -|p.dx| }), r.2.2, true)
    else if decide (down_right = 0) && !down_right_obstacle then
      let r := tryPop h sp x y here true
      (r.2.1.modifyParticle r.1 (fun p => { p with dx := |p.dx| }), r.2.2, true)
    else (h, sp, false)

/-- Integers `a, a+1, ..., b-1` (empty when `b ≤ a`). -/
def intRangeUp (a b : ℤ) : List ℤ :=
  (List.range (b - a).toNat).map (fun i : ℕ => a + (i : ℤ))

/-- Integers `a, a-1, ..., b` (empty when `a < b`). -/
def intRangeDown (a b : ℤ) : List ℤ :=
  (List.range (a - b + 1).toNat).map (fun i : ℕ => a - (i : ℤ))

/-- One inner-loop body of `StaticParticles::simulate`: read the cell raw
(the loop iterates in bounds) and run `simulate_one` if it is occupied. -/
def simStep (obs : ℤ → ℤ → Bool) (drop_bottom : Bool)
    (st : PopClock × StaticParticles × Bool) (q : ℤ × ℤ) :
    PopClock × StaticParticles × Bool :=
  let here := st.2.1.unsafe_at q.1 q.2
  if 0 < here then
    let r := StaticParticles.simulate_one st.1 st.2.1 obs drop_bottom q.1 q.2 here
    (r.1, r.2.1, st.2.2 || r.2.2)
  else st

/-- `StaticParticles::simulate`: one automaton pass, bottom-up over the dirty
region (the nested `for` loops are flattened into one fold over the visited
`(x, y)` pairs, in the source's iteration order). -/
def StaticParticles.simulate (h : PopClock) (sp : StaticParticles)
    (drop_bottom : Bool) (obs : ℤ → ℤ → Bool) : PopClock × StaticParticles × Bool :=
  let start_y := sp.h_ - (if drop_bottom then 1 else 2)
  let stop_y := min sp.needs_sim_up_to (if drop_bottom then sp.h_ - 1 else sp.h_)
  let sp0 := { sp with needs_sim_up_to := sp.h_ }
  ((intRangeDown start_y stop_y).flatMap
      (fun y => (intRangeUp 0 sp.w_).map (fun x => (x, y)))).foldl
    (simStep obs drop_bottom) (h, sp0, false)

/-- `StaticParticles::force_full_simulate_next`. -/
def StaticParticles.force_full_simulate_next (sp : StaticParticles) (up_to : ℤ) :
    StaticParticles := { sp with needs_sim_up_to := up_to }

/-- All in-bounds cells in `pop_all` iteration order (`y` outer, `x` inner). -/
def allCells (w h : ℤ) : List (ℤ × ℤ) :=
  (intRangeUp 0 h).flatMap (fun y => (intRangeUp 0 w).map (fun x => (x, y)))

/-- One loop body of `StaticParticles::pop_all`. -/
def popAllStep (st : PopClock × StaticParticles) (q : ℤ × ℤ) :
    PopClock × StaticParticles :=
  let here := st.2.unsafe_at q.1 q.2
  if 0 < here then
    let r := tryPop st.1 st.2 q.1 q.2 here false
    (r.2.1, r.2.2)
  else st

/-- `StaticParticles::pop_all`: convert every occupied cell to a dynamic
particle (no forced downward momentum), then cancel all pending simulation. -/
def StaticParticles.pop_all (h : PopClock) (sp : StaticParticles) :
    PopClock × StaticParticles :=
  let res := (allCells sp.w_ sp.h_).foldl popAllStep (h, sp)
  (res.1, { res.2 with needs_sim_up_to := res.2.h_ })

/-- The composed obstacle query passed to `Particle::simulate` by
`PopClock::simulate`: open floor during dropout, otherwise arena walls,
static mass, and the clock's solid geometry. -/
def popClockObstacle (w h : ℤ) (dropout : Bool) (sp : StaticParticles)
    (clockSolid : ℤ → ℤ → Bool) (x y : ℤ) : Bool :=
  if dropout && decide (h ≤ y) then false
  else decide (x < 0) || decide (w ≤ x) || decide (y < 0) || decide (h ≤ y) ||
    decide (sp.get x y ≠ 0) || clockSolid x y

example : ratTrunc (11 / 10) = 1 := by norm_num [ratTrunc]
example : ratTrunc (-11 / 10) = -1 := by norm_num [ratTrunc, Int.ceil_neg]
example : ratTrunc (-1 / 2) = 0 := by norm_num [ratTrunc, Int.ceil_neg]
example : ratTrunc (5 / 2) = 2 := by norm_num [ratTrunc]

/-! ### List and range helper lemmas -/

lemma getD_set_self (l : List ℕ) (i : ℕ) (v : ℕ) (h : i < l.length) :
    (l.set i v).getD i 0 = v := by
  induction l generalizing i with
  | nil => simp at h
  | cons a t ih =>
    cases i with
    | zero => simp
    | succ n => simpa using ih n (by simp only [List.length_cons] at h; omega)

lemma getD_set_ne (l : List ℕ) (i j : ℕ) (v : ℕ) (h : i ≠ j) :
    (l.set i v).getD j 0 = l.getD j 0 := by
  induction l generalizing i j with
  | nil => simp
  | cons a t ih =>
    cases i with
    | zero =>
      cases j with
      | zero => exact absurd rfl h
      | succ m => simp
    | succ n =>
      cases j with
      | zero => simp
      | succ m => simpa using ih n m (by omega)

lemma getD_set_or (l : List ℕ) (i j : ℕ) (v : ℕ) :
    (l.set i v).getD j 0 = l.getD j 0 ∨ (l.set i v).getD j 0 = v := by
  by_cases h : i = j
  · subst h
    by_cases hl : i < l.length
    · exact Or.inr (getD_set_self l i v hl)
    · left
      rw [List.set_eq_of_length_le (by omega)]
  · exact Or.inl (getD_set_ne l i j v h)

lemma getD_lt_length_of_ne_zero (l : List ℕ) (j : ℕ) (h : l.getD j 0 ≠ 0) :
    j < l.length := by
  by_contra hj
  exact h (by rw [List.getD_eq_default]; omega)

lemma set_append_singleton (l : List Particle) (p q : Particle) :
    (l ++ [p]).set l.length q = l ++ [q] := by
  induction l with
  | nil => simp
  | cons a t ih => simp [ih]

lemma getD_append_singleton (l : List Particle) (p : Particle) :
    (l ++ [p]).getD l.length default = p := by
  induction l with
  | nil => simp
  | cons a t ih => simp [ih]

lemma mem_intRangeUp {a b z : ℤ} : z ∈ intRangeUp a b ↔ a ≤ z ∧ z < b := by
  unfold intRangeUp
  rw [List.mem_map]
  constructor
  · rintro ⟨i, hi, rfl⟩
    rw [List.mem_range] at hi
    omega
  · intro h
    refine ⟨(z - a).toNat, ?_, ?_⟩
    · rw [List.mem_range]
      omega
    · omega

lemma mem_intRangeDown {a b z : ℤ} : z ∈ intRangeDown a b ↔ b ≤ z ∧ z ≤ a := by
  unfold intRangeDown
  rw [List.mem_map]
  constructor
  · rintro ⟨i, hi, rfl⟩
    rw [List.mem_range] at hi
    omega
  · intro h
    refine ⟨(a - z).toNat, ?_, ?_⟩
    · rw [List.mem_range]
      omega
    · omega

lemma nodup_intRangeUp (a b : ℤ) : (intRangeUp a b).Nodup := by
  unfold intRangeUp
  refine (List.nodup_range _).map ?_
  intro i j hij
  have h2 : a + (i : ℤ) = a + (j : ℤ) := hij
  omega

lemma mem_allCells {w h : ℤ} {q : ℤ × ℤ} :
    q ∈ allCells w h ↔ 0 ≤ q.1 ∧ q.1 < w ∧ 0 ≤ q.2 ∧ q.2 < h := by
  unfold allCells
  rw [List.mem_flatMap]
  constructor
  · rintro ⟨y, hy, hq⟩
    rw [List.mem_map] at hq
    obtain ⟨x, hx, rfl⟩ := hq
    rw [mem_intRangeUp] at hy hx
    exact ⟨hx.1, hx.2, hy.1, hy.2⟩
  · rintro ⟨h1, h2, h3, h4⟩
    refine ⟨q.2, mem_intRangeUp.mpr ⟨h3, h4⟩, ?_⟩
    rw [List.mem_map]
    exact ⟨q.1, mem_intRangeUp.mpr ⟨h1, h2⟩, rfl⟩

lemma nodup_allCells (w h : ℤ) : (allCells w h).Nodup := by
  unfold allCells
  rw [List.nodup_flatMap]
  constructor
  · intro y _
    refine (nodup_intRangeUp 0 w).map ?_
    intro i j hij
    exact congrArg Prod.fst hij
  · refine List.Pairwise.imp ?_ (nodup_intRangeUp 0 h)
    intro y1 y2 hne
    intro q hq1 hq2
    rw [List.mem_map] at hq1 hq2
    obtain ⟨x1, _, rfl⟩ := hq1
    obtain ⟨x2, _, h2⟩ := hq2
    exact hne (congrArg Prod.snd h2).symm

/-- The row-major cell index. -/
def cellIdx (w x y : ℤ) : ℕ := (x + y * w).toNat

lemma cellIdx_inj {w x y x' y' : ℤ} (hx : 0 ≤ x) (hxw : x < w)
    (hx' : 0 ≤ x') (hxw' : x' < w) (hy : 0 ≤ y) (hy' : 0 ≤ y')
    (hne : ¬(x = x' ∧ y = y')) : cellIdx w x y ≠ cellIdx w x' y' := by
  intro hEq
  have hw : (0:ℤ) < w := by omega
  have e1 : (0:ℤ) ≤ y * w := mul_nonneg hy (le_of_lt hw)
  have e2 : (0:ℤ) ≤ y' * w := mul_nonneg hy' (le_of_lt hw)
  have h1 : x + y * w = x' + y' * w := by
    unfold cellIdx at hEq
    omega
  have key : x - x' = (y' - y) * w := by
    have : (y' - y) * w = y' * w - y * w := by ring
    linarith
  rcases lt_trichotomy y y' with hlt | heq | hgt
  · have hone : 1 * w ≤ (y' - y) * w :=
      mul_le_mul_of_nonneg_right (by omega) (le_of_lt hw)
    rw [one_mul] at hone
    linarith
  · refine hne ⟨?_, heq⟩
    have : (y' - y) * w = 0 := by
      rw [heq]
      ring
    linarith
  · have hone : 1 * w ≤ (y - y') * w :=
      mul_le_mul_of_nonneg_right (by omega) (le_of_lt hw)
    have : (y - y') * w = -((y' - y) * w) := by ring
    rw [one_mul] at hone
    linarith

/-! ### Fold invariant helpers -/

lemma foldl_preserve {σ α : Type} (Inv : σ → Prop) (f : σ → α → σ)
    (hf : ∀ s a, Inv s → Inv (f s a)) :
    ∀ (l : List α) (s : σ), Inv s → Inv (l.foldl f s) := by
  intro l
  induction l with
  | nil => intro s hs; exact hs
  | cons a t ih => intro s hs; exact ih (f s a) (hf s a hs)

lemma foldl_establish {σ α : Type} (Inv P : σ → Prop) (f : σ → α → σ) (a : α)
    (hInv : ∀ s b, Inv s → Inv (f s b))
    (hest : ∀ s, Inv s → P (f s a))
    (hpres : ∀ s b, Inv s → P s → P (f s b)) :
    ∀ (l : List α), a ∈ l → ∀ s, Inv s → P (l.foldl f s) := by
  intro l
  induction l with
  | nil => intro h; exact absurd h (List.not_mem_nil a)
  | cons b t ih =>
    intro hmem s hs
    rcases List.mem_cons.mp hmem with rfl | hat
    · simp only [List.foldl_cons]
      refine foldl_preserve (fun s => Inv s ∧ P s) f ?_ t (f s a) ⟨hInv s a hs, hest s hs⟩ |>.2
      intro s' b' ⟨hi, hp⟩
      exact ⟨hInv s' b' hi, hpres s' b' hi hp⟩
    · exact ih hat (f s b) (hInv s b hs)

/-! ### Grid read/write lemmas -/

lemma StaticParticles.get_eq_unsafe_at (sp : StaticParticles) {x y : ℤ}
    (hx : 0 ≤ x) (hxw : x < sp.w_) (hy : 0 ≤ y) (hyh : y < sp.h_) :
    sp.get x y = sp.unsafe_at x y := by
  unfold StaticParticles.get
  rw [if_neg]
  omega

lemma StaticParticles.set_w (sp : StaticParticles) (x y : ℤ) (c : ℕ) :
    (sp.set x y c).w_ = sp.w_ := by
  unfold StaticParticles.set
  split <;> rfl

lemma StaticParticles.set_h (sp : StaticParticles) (x y : ℤ) (c : ℕ) :
    (sp.set x y c).h_ = sp.h_ := by
  unfold StaticParticles.set
  split <;> rfl

lemma StaticParticles.set_length (sp : StaticParticles) (x y : ℤ) (c : ℕ) :
    (sp.set x y c).color_.length = sp.color_.length := by
  unfold StaticParticles.set
  split
  · rfl
  · exact List.length_set sp.color_ _ c

lemma StaticParticles.get_set_self (sp : StaticParticles) {x y : ℤ} (c : ℕ)
    (hx : 0 ≤ x) (hxw : x < sp.w_) (hy : 0 ≤ y) (hyh : y < sp.h_)
    (hidx : (x + y * sp.w_).toNat < sp.color_.length) :
    (sp.set x y c).get x y = c := by
  unfold StaticParticles.set
  rw [if_neg (by omega)]
  unfold StaticParticles.get StaticParticles.unsafe_at
  dsimp only
  rw [if_neg (by omega)]
  exact getD_set_self _ _ _ hidx

lemma StaticParticles.get_set_ne (sp : StaticParticles) {x y a b : ℤ} (c : ℕ)
    (hx : 0 ≤ x) (hxw : x < sp.w_) (hy : 0 ≤ y) (hyh : y < sp.h_)
    (hne : ¬(x = a ∧ y = b)) :
    (sp.set x y c).get a b = sp.get a b := by
  unfold StaticParticles.set
  rw [if_neg (by omega)]
  unfold StaticParticles.get StaticParticles.unsafe_at
  dsimp only
  by_cases hab : a < 0 ∨ sp.w_ ≤ a ∨ b < 0 ∨ sp.h_ ≤ b
  · rw [if_pos hab, if_pos hab]
  · rw [if_neg hab, if_neg hab]
    exact getD_set_ne _ _ _ _
      (cellIdx_inj hx hxw (by omega) (by omega) hy (by omega)
        (by intro hc; exact hne ⟨hc.1, hc.2⟩))

lemma StaticParticles.get_set_zero_or (sp : StaticParticles) (x y a b : ℤ) :
    (sp.set x y 0).get a b = sp.get a b ∨ (sp.set x y 0).get a b = 0 := by
  unfold StaticParticles.set
  split
  · exact Or.inl rfl
  · unfold StaticParticles.get StaticParticles.unsafe_at
    split
    · exact Or.inl rfl
    · exact getD_set_or _ _ _ _

lemma StaticParticles.unsafe_at_lt_length (sp : StaticParticles) {x y : ℤ}
    (h : sp.unsafe_at x y ≠ 0) : (x + y * sp.w_).toNat < sp.color_.length :=
  getD_lt_length_of_ne_zero _ _ h

/-- `try_pop` in closed form: append the popped particle, advance the RNG,
clear the source cell. -/
lemma tryPop_eq (h : PopClock) (sp : StaticParticles) (x y : ℤ) (here : ℕ)
    (down : Bool) :
    tryPop h sp x y here down =
      (h.particles.length,
       { particles := h.particles ++
           [if down then
              { (Particle.pop h.rng (x : ℚ) (y : ℚ) here).1 with
                dy := |(Particle.pop h.rng (x : ℚ) (y : ℚ) here).1.dy| }
            else (Particle.pop h.rng (x : ℚ) (y : ℚ) here).1],
         have_live_particles := true,
         rng := (Particle.pop h.rng (x : ℚ) (y : ℚ) here).2 },
       sp.set x y 0) := by
  unfold tryPop PopClock.find_free_particle
  simp only [set_append_singleton]

/-- The only grid writes `simulate_one` can perform clear the visited cell. -/
lemma simulate_one_grid (h : PopClock) (sp : StaticParticles)
    (obs : ℤ → ℤ → Bool) (db : Bool) (x y : ℤ) (here : ℕ) :
    (StaticParticles.simulate_one h sp obs db x y here).2.1 = sp ∨
    (StaticParticles.simulate_one h sp obs db x y here).2.1 = sp.set x y 0 := by
  unfold StaticParticles.simulate_one
  dsimp only
  repeat' split
  all_goals first
  | exact Or.inr rfl
  | exact Or.inl rfl

lemma mem_pairList {xs ys : List ℤ} {q : ℤ × ℤ} :
    q ∈ ys.flatMap (fun y => xs.map (fun x => (x, y))) ↔ q.2 ∈ ys ∧ q.1 ∈ xs := by
  rw [List.mem_flatMap]
  constructor
  · rintro ⟨y, hy, hq⟩
    rw [List.mem_map] at hq
    obtain ⟨x, hx, rfl⟩ := hq
    exact ⟨hy, hx⟩
  · rintro ⟨h1, h2⟩
    refine ⟨q.2, h1, ?_⟩
    rw [List.mem_map]
    exact ⟨q.1, h2, rfl⟩

/-! ### Zero-write lemmas for the automaton passes -/

lemma simStep_grid_or (obs : ℤ → ℤ → Bool) (db : Bool)
    (st : PopClock × StaticParticles × Bool) (q : ℤ × ℤ) :
    (simStep obs db st q).2.1 = st.2.1 ∨
    (simStep obs db st q).2.1 = st.2.1.set q.1 q.2 0 := by
  unfold simStep
  dsimp only
  split
  · exact simulate_one_grid st.1 st.2.1 obs db q.1 q.2 _
  · exact Or.inl rfl

lemma popAllStep_grid_or (st : PopClock × StaticParticles) (q : ℤ × ℤ) :
    (popAllStep st q).2 = st.2 ∨ (popAllStep st q).2 = st.2.set q.1 q.2 0 := by
  unfold popAllStep
  dsimp only
  split
  · exact Or.inr rfl
  · exact Or.inl rfl

lemma simFold_zero_writes (obs : ℤ → ℤ → Bool) (db : Bool)
    (l : List (ℤ × ℤ)) (s0 : PopClock × StaticParticles × Bool) (a b : ℤ) :
    (l.foldl (simStep obs db) s0).2.1.get a b = s0.2.1.get a b ∨
    (l.foldl (simStep obs db) s0).2.1.get a b = 0 := by
  refine foldl_preserve
    (fun st => st.2.1.get a b = s0.2.1.get a b ∨ st.2.1.get a b = 0)
    (simStep obs db) ?_ l s0 (Or.inl rfl)
  intro s q hp
  rcases simStep_grid_or obs db s q with he | he
  · rw [he]
    exact hp
  · rw [he]
    rcases s.2.1.get_set_zero_or q.1 q.2 a b with h2 | h2
    · rw [h2]
      exact hp
    · exact Or.inr h2

lemma popAllFold_zero_writes (l : List (ℤ × ℤ)) (s0 : PopClock × StaticParticles)
    (a b : ℤ) :
    (l.foldl popAllStep s0).2.get a b = s0.2.get a b ∨
    (l.foldl popAllStep s0).2.get a b = 0 := by
  refine foldl_preserve
    (fun st => st.2.get a b = s0.2.get a b ∨ st.2.get a b = 0)
    popAllStep ?_ l s0 (Or.inl rfl)
  intro s q hp
  rcases popAllStep_grid_or s q with he | he
  · rw [he]
    exact hp
  · rw [he]
    rcases s.2.get_set_zero_or q.1 q.2 a b with h2 | h2
    · rw [h2]
      exact hp
    · exact Or.inr h2

/-! ### Claim theorems -/

/-- C9: for every out-of-bounds coordinate, `StaticParticles::get` returns 0
and `StaticParticles::set` is a no-op that leaves the whole state (grid cells
and dirty-region cursor) unchanged; neither operation fails. -/
theorem c9_oob_get_set (sp : StaticParticles) (x y : ℤ) (c : ℕ)
    (h : x < 0 ∨ sp.w_ ≤ x ∨ y < 0 ∨ sp.h_ ≤ y) :
    sp.get x y = 0 ∧ sp.set x y c = sp := by
  constructor
  · unfold StaticParticles.get
    rw [if_pos h]
  · unfold StaticParticles.set
    rw [if_pos h]

/-- Witness for C9 at a concrete out-of-bounds query. -/
theorem c9_oob_get_set_witness :
    ((-1 : ℤ) < 0 ∨ (⟨[5], 1, 1, 1⟩ : StaticParticles).w_ ≤ -1 ∨ (0 : ℤ) < 0 ∨
      (⟨[5], 1, 1, 1⟩ : StaticParticles).h_ ≤ 0) ∧
    ((⟨[5], 1, 1, 1⟩ : StaticParticles).get (-1) 0 = 0 ∧
      (⟨[5], 1, 1, 1⟩ : StaticParticles).set (-1) 0 7 = ⟨[5], 1, 1, 1⟩) :=
  ⟨by decide, c9_oob_get_set ⟨[5], 1, 1, 1⟩ (-1) 0 7 (by decide)⟩

/-- C10: every grid write performed by the cellular automaton — the crush
branch of `simulate_one`, the conversion in `try_pop`, and `pop_all` —
stores zero: after any of these passes every cell either kept its old value
or is empty, so the automaton never writes a nonzero color, and a cell can
go from empty to occupied only through the driver's settling write. -/
theorem c10_automaton_zero_writes (h : PopClock) (sp : StaticParticles)
    (obs : ℤ → ℤ → Bool) (db down : Bool) (x y a b : ℤ) (here : ℕ) :
    ((tryPop h sp x y here down).2.2.get a b = sp.get a b ∨
      (tryPop h sp x y here down).2.2.get a b = 0) ∧
    ((StaticParticles.simulate_one h sp obs db x y here).2.1.get a b = sp.get a b ∨
      (StaticParticles.simulate_one h sp obs db x y here).2.1.get a b = 0) ∧
    ((StaticParticles.simulate h sp db obs).2.1.get a b = sp.get a b ∨
      (StaticParticles.simulate h sp db obs).2.1.get a b = 0) ∧
    ((StaticParticles.pop_all h sp).2.get a b = sp.get a b ∨
      (StaticParticles.pop_all h sp).2.get a b = 0) := by
  refine ⟨?_, ?_, ?_, ?_⟩
  · exact sp.get_set_zero_or x y a b
  · rcases simulate_one_grid h sp obs db x y here with he | he
    · rw [he]
      exact Or.inl rfl
    · rw [he]
      exact sp.get_set_zero_or x y a b
  · exact simFold_zero_writes obs db _ _ a b
  · exact popAllFold_zero_writes _ _ a b

/-! ### Particle pop and velocity helper lemmas -/

lemma pop_tv_eq (r : RNG) (x y : ℚ) (c : ℕ) :
    (Particle.pop r x y c).1.tv = r.fracs r.idx * (7 / 10) + 3 / 10 := rfl

lemma pop_dx_eq (r : RNG) (x y : ℚ) (c : ℕ) :
    (Particle.pop r x y c).1.dx =
      (if r.flips (r.idx + 2) then
        -(r.fracs (r.idx + 1) * (Particle.pop r x y c).1.tv)
      else r.fracs (r.idx + 1) * (Particle.pop r x y c).1.tv) := rfl

lemma pop_dy_eq (r : RNG) (x y : ℚ) (c : ℕ) :
    (Particle.pop r x y c).1.dy =
      (if r.flips (r.idx + 4) then
        -(r.fracs (r.idx + 3) * (Particle.pop r x y c).1.tv)
      else r.fracs (r.idx + 3) * (Particle.pop r x y c).1.tv) := rfl

lemma pop_tv_range (r : RNG) (x y : ℚ) (c : ℕ)
    (h0 : 0 ≤ r.fracs r.idx) (h1 : r.fracs r.idx < 1) :
    3 / 10 ≤ (Particle.pop r x y c).1.tv ∧ (Particle.pop r x y c).1.tv < 1 := by
  rw [pop_tv_eq]
  constructor
  · nlinarith
  · nlinarith

lemma abs_signed_mul (b : Bool) (a : ℚ) (ha : 0 ≤ a) :
    |if b then -a else a| = a := by
  cases b
  · rw [if_neg (by simp)]
    exact abs_of_nonneg ha
  · rw [if_pos rfl, abs_neg]
    exact abs_of_nonneg ha

lemma pop_abs_dy (r : RNG) (x y : ℚ) (c : ℕ)
    (h0 : 0 ≤ r.fracs r.idx) (h3 : 0 ≤ r.fracs (r.idx + 3)) :
    |(Particle.pop r x y c).1.dy| =
      r.fracs (r.idx + 3) * (Particle.pop r x y c).1.tv := by
  rw [pop_dy_eq]
  refine abs_signed_mul _ _ (mul_nonneg h3 ?_)
  rw [pop_tv_eq]
  nlinarith

lemma pop_abs_dx (r : RNG) (x y : ℚ) (c : ℕ)
    (h0 : 0 ≤ r.fracs r.idx) (h1 : 0 ≤ r.fracs (r.idx + 1)) :
    |(Particle.pop r x y c).1.dx| =
      r.fracs (r.idx + 1) * (Particle.pop r x y c).1.tv := by
  rw [pop_dx_eq]
  refine abs_signed_mul _ _ (mul_nonneg h1 ?_)
  rw [pop_tv_eq]
  nlinarith

lemma simulate_tv_eq (obs : ℤ → ℤ → Bool) (p : Particle) :
    (Particle.simulate obs p).1.tv = p.tv := rfl

lemma simulate_dy_eq (obs : ℤ → ℤ → Bool) (p : Particle) :
    (Particle.simulate obs p).1.dy =
      min p.tv
        ((if (obs (ratTrunc (p.x + p.dx)) (ratTrunc (p.y + p.dy)) &&
              obs (ratTrunc p.x) (ratTrunc (p.y + p.dy)) : Bool)
          then p.dy * (-Particle.k_elasticity) else p.dy) + Particle.k_gravity) := rfl

lemma min_grav_abs_le (tv dy g : ℚ) (htv : 0 ≤ tv) (hg : 0 ≤ g)
    (hdy : -tv ≤ dy) : |min tv (dy + g)| ≤ tv := by
  rw [abs_le]
  constructor
  · refine le_min (by linarith) (by linarith)
  · exact min_le_left _ _

/-- C7 (part): `Particle::simulate` keeps `|dy| ≤ tv` and leaves `tv`
unchanged. -/
lemma simulate_dy_invariant (obs : ℤ → ℤ → Bool) (p : Particle)
    (hdy : |p.dy| ≤ p.tv) (htv : 0 ≤ p.tv) :
    |(Particle.simulate obs p).1.dy| ≤ (Particle.simulate obs p).1.tv := by
  rw [simulate_tv_eq, simulate_dy_eq]
  rw [abs_le] at hdy
  refine min_grav_abs_le _ _ _ htv (by norm_num [Particle.k_gravity]) ?_
  split
  · rw [Particle.k_elasticity]
    nlinarith [hdy.1, hdy.2]
  · exact hdy.1

/-- C7: `|dy| ≤ tv` holds after `pop` and is preserved by `simulate`
(bounce `dy *= -elasticity` and gravity `dy = min(tv, dy + gravity)`
included) and by the spawn-path adjustments `dy = |dy|` and `dy = -|dy|`;
`tv` is drawn in `[0.3, 1)` and never changed afterwards, so it never
exceeds 1. -/
theorem c7_velocity_invariant (r : RNG) (x y : ℚ) (c : ℕ) (p : Particle)
    (obs : ℤ → ℤ → Bool)
    (hfr : ∀ n, 0 ≤ r.fracs n ∧ r.fracs n < 1)
    (hdy : |p.dy| ≤ p.tv) (htv : 0 ≤ p.tv) :
    (|(Particle.pop r x y c).1.dy| ≤ (Particle.pop r x y c).1.tv ∧
      3 / 10 ≤ (Particle.pop r x y c).1.tv ∧ (Particle.pop r x y c).1.tv < 1) ∧
    (|(Particle.simulate obs p).1.dy| ≤ (Particle.simulate obs p).1.tv ∧
      (Particle.simulate obs p).1.tv = p.tv) ∧
    |(|p.dy|)| ≤ p.tv ∧ |(-|p.dy|)| ≤ p.tv := by
  obtain ⟨htv1, htv2⟩ := pop_tv_range r x y c (hfr r.idx).1 (hfr r.idx).2
  refine ⟨⟨?_, htv1, htv2⟩, ⟨simulate_dy_invariant obs p hdy htv, rfl⟩, ?_, ?_⟩
  · rw [pop_abs_dy r x y c (hfr r.idx).1 (hfr (r.idx + 3)).1]
    calc r.fracs (r.idx + 3) * (Particle.pop r x y c).1.tv
        ≤ 1 * (Particle.pop r x y c).1.tv := by
          refine mul_le_mul_of_nonneg_right (le_of_lt (hfr (r.idx + 3)).2) ?_
          linarith
      _ = (Particle.pop r x y c).1.tv := one_mul _
  · rw [abs_abs]
    exact hdy
  · rw [abs_neg, abs_abs]
    exact hdy

/-- Witness for C7 at a concrete RNG, particle, and obstacle query. -/
theorem c7_velocity_invariant_witness :
    ((∀ n, 0 ≤ (RNG.mk (fun _ => 1 / 2) (fun _ => false) 0).fracs n ∧
        (RNG.mk (fun _ => 1 / 2) (fun _ => false) 0).fracs n < 1) ∧
      |(⟨true, 0, 0, 0, 1 / 4, 1 / 2, 3⟩ : Particle).dy| ≤
        (⟨true, 0, 0, 0, 1 / 4, 1 / 2, 3⟩ : Particle).tv ∧
      0 ≤ (⟨true, 0, 0, 0, 1 / 4, 1 / 2, 3⟩ : Particle).tv) ∧
    ((|(Particle.pop (RNG.mk (fun _ => 1 / 2) (fun _ => false) 0) 2 3 9).1.dy| ≤
        (Particle.pop (RNG.mk (fun _ => 1 / 2) (fun _ => false) 0) 2 3 9).1.tv ∧
      3 / 10 ≤ (Particle.pop (RNG.mk (fun _ => 1 / 2) (fun _ => false) 0) 2 3 9).1.tv ∧
      (Particle.pop (RNG.mk (fun _ => 1 / 2) (fun _ => false) 0) 2 3 9).1.tv < 1) ∧
    (|(Particle.simulate (fun _ _ => false) ⟨true, 0, 0, 0, 1 / 4, 1 / 2, 3⟩).1.dy| ≤
        (Particle.simulate (fun _ _ => false) ⟨true, 0, 0, 0, 1 / 4, 1 / 2, 3⟩).1.tv ∧
      (Particle.simulate (fun _ _ => false) ⟨true, 0, 0, 0, 1 / 4, 1 / 2, 3⟩).1.tv =
        (⟨true, 0, 0, 0, 1 / 4, 1 / 2, 3⟩ : Particle).tv) ∧
    |(|(⟨true, 0, 0, 0, 1 / 4, 1 / 2, 3⟩ : Particle).dy|)| ≤
      (⟨true, 0, 0, 0, 1 / 4, 1 / 2, 3⟩ : Particle).tv ∧
    |(-|(⟨true, 0, 0, 0, 1 / 4, 1 / 2, 3⟩ : Particle).dy|)| ≤
      (⟨true, 0, 0, 0, 1 / 4, 1 / 2, 3⟩ : Particle).tv) :=
  ⟨⟨fun n => ⟨by norm_num, by norm_num⟩,
    by rw [show ((⟨true, 0, 0, 0, 1 / 4, 1 / 2, 3⟩ : Particle)).dy = 1 / 4 from rfl,
      abs_of_nonneg (by norm_num : (0:ℚ) ≤ 1 / 4)]; norm_num, by norm_num⟩,
   c7_velocity_invariant (RNG.mk (fun _ => 1 / 2) (fun _ => false) 0) 2 3 9
     ⟨true, 0, 0, 0, 1 / 4, 1 / 2, 3⟩ (fun _ _ => false)
     (fun n => ⟨by norm_num, by norm_num⟩)
     (by rw [show ((⟨true, 0, 0, 0, 1 / 4, 1 / 2, 3⟩ : Particle)).dy = 1 / 4 from rfl,
       abs_of_nonneg (by norm_num : (0:ℚ) ≤ 1 / 4)]; norm_num) (by norm_num)⟩

/-- C8: `Particle::pop` marks the slot active at the given position with the
given color, draws `tv = 0.3 + 0.7 * u` with `u` a uniform `[0,1)` draw (so
`tv` is uniform in `[0.3, 1)`), and sets `dx` and `dy` with magnitudes
`u' * tv` in `[0, tv)` from two further independent `[0,1)` draws and signs
from two independent coin flips; five engine draws are consumed. -/
theorem c8_pop_randomization (r : RNG) (x y : ℚ) (c : ℕ)
    (h0 : 0 ≤ r.fracs r.idx ∧ r.fracs r.idx < 1)
    (h1 : 0 ≤ r.fracs (r.idx + 1) ∧ r.fracs (r.idx + 1) < 1)
    (h3 : 0 ≤ r.fracs (r.idx + 3) ∧ r.fracs (r.idx + 3) < 1) :
    (Particle.pop r x y c).1.active = true ∧
    (Particle.pop r x y c).1.x = x ∧
    (Particle.pop r x y c).1.y = y ∧
    (Particle.pop r x y c).1.color = c ∧
    (Particle.pop r x y c).1.tv = r.fracs r.idx * (7 / 10) + 3 / 10 ∧
    3 / 10 ≤ (Particle.pop r x y c).1.tv ∧ (Particle.pop r x y c).1.tv < 1 ∧
    |(Particle.pop r x y c).1.dx| = r.fracs (r.idx + 1) * (Particle.pop r x y c).1.tv ∧
    |(Particle.pop r x y c).1.dx| < (Particle.pop r x y c).1.tv ∧
    (Particle.pop r x y c).1.dx =
      (if r.flips (r.idx + 2) then
        -(r.fracs (r.idx + 1) * (Particle.pop r x y c).1.tv)
      else r.fracs (r.idx + 1) * (Particle.pop r x y c).1.tv) ∧
    |(Particle.pop r x y c).1.dy| = r.fracs (r.idx + 3) * (Particle.pop r x y c).1.tv ∧
    |(Particle.pop r x y c).1.dy| < (Particle.pop r x y c).1.tv ∧
    (Particle.pop r x y c).1.dy =
      (if r.flips (r.idx + 4) then
        -(r.fracs (r.idx + 3) * (Particle.pop r x y c).1.tv)
      else r.fracs (r.idx + 3) * (Particle.pop r x y c).1.tv) ∧
    (Particle.pop r x y c).2.idx = r.idx + 5 := by
  obtain ⟨htv1, htv2⟩ := pop_tv_range r x y c h0.1 h0.2
  have htvpos : 0 < (Particle.pop r x y c).1.tv := by linarith
  refine ⟨rfl, rfl, rfl, rfl, rfl, htv1, htv2, pop_abs_dx r x y c h0.1 h1.1, ?_,
    pop_dx_eq r x y c, pop_abs_dy r x y c h0.1 h3.1, ?_, pop_dy_eq r x y c, rfl⟩
  · rw [pop_abs_dx r x y c h0.1 h1.1]
    calc r.fracs (r.idx + 1) * (Particle.pop r x y c).1.tv
        < 1 * (Particle.pop r x y c).1.tv := by
          exact mul_lt_mul_of_pos_right h1.2 htvpos
      _ = (Particle.pop r x y c).1.tv := one_mul _
  · rw [pop_abs_dy r x y c h0.1 h3.1]
    calc r.fracs (r.idx + 3) * (Particle.pop r x y c).1.tv
        < 1 * (Particle.pop r x y c).1.tv := by
          exact mul_lt_mul_of_pos_right h3.2 htvpos
      _ = (Particle.pop r x y c).1.tv := one_mul _

/-- Witness for C8 at a concrete RNG state. -/
theorem c8_pop_randomization_witness :
    ((0 ≤ (RNG.mk (fun _ => 1 / 3) (fun _ => true) 4).fracs 4 ∧
        (RNG.mk (fun _ => 1 / 3) (fun _ => true) 4).fracs 4 < 1) ∧
      (0 ≤ (RNG.mk (fun _ => 1 / 3) (fun _ => true) 4).fracs 5 ∧
        (RNG.mk (fun _ => 1 / 3) (fun _ => true) 4).fracs 5 < 1) ∧
      (0 ≤ (RNG.mk (fun _ => 1 / 3) (fun _ => true) 4).fracs 7 ∧
        (RNG.mk (fun _ => 1 / 3) (fun _ => true) 4).fracs 7 < 1)) ∧
    (Particle.pop (RNG.mk (fun _ => 1 / 3) (fun _ => true) 4) 1 2 3).2.idx = 4 + 5 :=
  ⟨⟨⟨by norm_num, by norm_num⟩, ⟨by norm_num, by norm_num⟩, ⟨by norm_num, by norm_num⟩⟩,
   (c8_pop_randomization (RNG.mk (fun _ => 1 / 3) (fun _ => true) 4) 1 2 3
     ⟨by norm_num, by norm_num⟩ ⟨by norm_num, by norm_num⟩
     ⟨by norm_num, by norm_num⟩).2.2.2.2.2.2.2.2.2.2.2.2.2⟩

/-! ### Spec-side predicates for the settle and collision claims -/

/-- Modelled from the spec (§4.1 step 2): the horizontal-axis collision test —
the full candidate cell is solid and so is the horizontal-only candidate. -/
def specBlockedX (obs : ℤ → ℤ → Bool) (p : Particle) : Bool :=
  obs (ratTrunc (p.x + p.dx)) (ratTrunc (p.y + p.dy)) &&
  obs (ratTrunc (p.x + p.dx)) (ratTrunc p.y)

/-- Modelled from the spec (§4.1 step 2): the vertical-axis collision test. -/
def specBlockedY (obs : ℤ → ℤ → Bool) (p : Particle) : Bool :=
  obs (ratTrunc (p.x + p.dx)) (ratTrunc (p.y + p.dy)) &&
  obs (ratTrunc p.x) (ratTrunc (p.y + p.dy))

/-- Modelled from the spec (§4.1 step 3): the committed x position. -/
def specCommitX (obs : ℤ → ℤ → Bool) (p : Particle) : ℚ :=
  if specBlockedX obs p then p.x else p.x + p.dx

/-- Modelled from the spec (§4.1 step 3): the committed y position. -/
def specCommitY (obs : ℤ → ℤ → Bool) (p : Particle) : ℚ :=
  if specBlockedY obs p then p.y else p.y + p.dy

/-- Modelled from the spec (§4.1 step 2): the horizontal velocity after the
bounce response (elasticity on a horizontal hit, friction on a vertical hit),
before gravity. -/
def specDxAfter (obs : ℤ → ℤ → Bool) (p : Particle) : ℚ :=
  (if specBlockedX obs p then p.dx * (-Particle.k_elasticity) else p.dx) *
  (if specBlockedY obs p then Particle.k_friction else 1)

/-- Modelled from the spec (§4.1 step 2): the vertical velocity after the
bounce response, before gravity. -/
def specDyAfter (obs : ℤ → ℤ → Bool) (p : Particle) : ℚ :=
  if specBlockedY obs p then p.dy * (-Particle.k_elasticity) else p.dy

/-- C1 (amended): for an active particle, `Particle::simulate` returns
`false` (settled) iff the tick was blocked on both axes (jammed, no
progress), or the post-bounce velocities are at most the movement epsilon on
both axes and the cell directly below the committed position is occupied. -/
theorem c1_settle_iff (obs : ℤ → ℤ → Bool) (p : Particle)
    (_hact : p.active = true) :
    (Particle.simulate obs p).2 = false ↔
    ((specBlockedX obs p = true ∧ specBlockedY obs p = true) ∨
     (|specDxAfter obs p| ≤ Particle.k_movement_epsilon ∧
      |specDyAfter obs p| ≤ Particle.k_movement_epsilon ∧
      obs (ratTrunc (specCommitX obs p)) (ratTrunc (specCommitY obs p + 1)) = true)) := by
  unfold Particle.simulate specDxAfter specDyAfter specCommitX specCommitY
    specBlockedX specBlockedY
  dsimp only
  cases h1 : obs (ratTrunc (p.x + p.dx)) (ratTrunc (p.y + p.dy)) <;>
    cases h2 : obs (ratTrunc (p.x + p.dx)) (ratTrunc p.y) <;>
      cases h3 : obs (ratTrunc p.x) (ratTrunc (p.y + p.dy)) <;>
        simp [not_lt, mul_one, and_comm] <;> tauto

/-- Witness for C1 at a concrete active particle and obstacle query. -/
theorem c1_settle_iff_witness :
    (⟨true, 0, 0, 1 / 2, 1 / 2, 1 / 2, 3⟩ : Particle).active = true ∧
    ((Particle.simulate (fun _ _ => false) ⟨true, 0, 0, 1 / 2, 1 / 2, 1 / 2, 3⟩).2 = false ↔
      ((specBlockedX (fun _ _ => false) ⟨true, 0, 0, 1 / 2, 1 / 2, 1 / 2, 3⟩ = true ∧
        specBlockedY (fun _ _ => false) ⟨true, 0, 0, 1 / 2, 1 / 2, 1 / 2, 3⟩ = true) ∨
       (|specDxAfter (fun _ _ => false) ⟨true, 0, 0, 1 / 2, 1 / 2, 1 / 2, 3⟩| ≤
          Particle.k_movement_epsilon ∧
        |specDyAfter (fun _ _ => false) ⟨true, 0, 0, 1 / 2, 1 / 2, 1 / 2, 3⟩| ≤
          Particle.k_movement_epsilon ∧
        (fun _ _ => false)
          (ratTrunc (specCommitX (fun _ _ => false) ⟨true, 0, 0, 1 / 2, 1 / 2, 1 / 2, 3⟩))
          (ratTrunc (specCommitY (fun _ _ => false) ⟨true, 0, 0, 1 / 2, 1 / 2, 1 / 2, 3⟩ + 1)) =
          true))) :=
  ⟨rfl, c1_settle_iff (fun _ _ => false) ⟨true, 0, 0, 1 / 2, 1 / 2, 1 / 2, 3⟩ rfl⟩

/-- The obstacle query of the C1 counterexample: everything is solid except
the cell `(5, 5)` the particle starts in. -/
def c1obs : ℤ → ℤ → Bool := fun a b => !(decide (a = 5) && decide (b = 5))

/-- The particle of the C1 counterexample: moving diagonally at speed 0.9
per axis from the middle of cell `(5, 5)`. -/
def c1p : Particle := ⟨true, 11 / 2, 11 / 2, 9 / 10, 9 / 10, 9 / 10, 1⟩

lemma c1_eval_snd : (Particle.simulate c1obs c1p).2 = false := by
  unfold Particle.simulate c1obs c1p
  norm_num [ratTrunc, Particle.k_elasticity, Particle.k_friction,
    Particle.k_movement_epsilon, Particle.k_gravity]

lemma c1_eval_dx : (Particle.simulate c1obs c1p).1.dx = -(9 / 25) := by
  unfold Particle.simulate c1obs c1p
  norm_num [ratTrunc, Particle.k_elasticity, Particle.k_friction]

/-- C1 counterexample: the claim's settle condition (velocities below the
epsilon and the cell below occupied) is an incorrect characterization — at
this input `simulate` returns `false` (the particle is blocked on both axes
and makes no progress) while `|dx|` after the step is `9/25 > 0.1`. -/
theorem c1_counterexample :
    ¬((Particle.simulate c1obs c1p).2 = false ↔
      (|(Particle.simulate c1obs c1p).1.dx| < Particle.k_movement_epsilon ∧
       |(Particle.simulate c1obs c1p).1.dy| < Particle.k_movement_epsilon ∧
       c1obs (ratTrunc (Particle.simulate c1obs c1p).1.x)
         (ratTrunc ((Particle.simulate c1obs c1p).1.y + 1)) = true)) := by
  intro h
  have hdx := (h.mp c1_eval_snd).1
  rw [c1_eval_dx, abs_neg, abs_of_nonneg (by norm_num : (0:ℚ) ≤ 9 / 25)] at hdx
  rw [Particle.k_movement_epsilon] at hdx
  norm_num at hdx

/-- C2 (amended): if a particle starts outside every occupied cell, then
after `Particle::simulate` its committed position is again outside every
occupied cell, for all velocities with `|dx|, |dy| ≤ 1` — except in the
diagonal corner case, excluded here, in which the full candidate cell is
solid but both axis-only candidates are free (then the particle tunnels
into the occupied diagonal cell). -/
theorem c2_no_overlap (obs : ℤ → ℤ → Bool) (p : Particle)
    (hpre : obs (ratTrunc p.x) (ratTrunc p.y) = false)
    (_hdx : |p.dx| ≤ 1) (_hdy : |p.dy| ≤ 1)
    (hnd : ¬(obs (ratTrunc (p.x + p.dx)) (ratTrunc (p.y + p.dy)) = true ∧
             obs (ratTrunc (p.x + p.dx)) (ratTrunc p.y) = false ∧
             obs (ratTrunc p.x) (ratTrunc (p.y + p.dy)) = false)) :
    obs (ratTrunc (Particle.simulate obs p).1.x)
      (ratTrunc (Particle.simulate obs p).1.y) = false := by
  unfold Particle.simulate
  dsimp only
  cases h1 : obs (ratTrunc (p.x + p.dx)) (ratTrunc (p.y + p.dy)) <;>
    cases h2 : obs (ratTrunc (p.x + p.dx)) (ratTrunc p.y) <;>
      cases h3 : obs (ratTrunc p.x) (ratTrunc (p.y + p.dy)) <;>
        simp only [h1, h2, h3, Bool.true_and, Bool.false_and, Bool.and_true,
          Bool.and_false, if_true, if_false] <;>
        first
        | exact h1
        | exact h2
        | exact h3
        | exact hpre
        | exact absurd ⟨h1, h2, h3⟩ hnd

/-- Witness for C2 at a concrete collision-free step. -/
theorem c2_no_overlap_witness :
    ((fun _ _ => false : ℤ → ℤ → Bool)
        (ratTrunc (⟨true, 1 / 2, 1 / 2, 0, 0, 1 / 2, 3⟩ : Particle).x)
        (ratTrunc (⟨true, 1 / 2, 1 / 2, 0, 0, 1 / 2, 3⟩ : Particle).y) = false) ∧
    |(⟨true, 1 / 2, 1 / 2, 0, 0, 1 / 2, 3⟩ : Particle).dx| ≤ 1 ∧
    |(⟨true, 1 / 2, 1 / 2, 0, 0, 1 / 2, 3⟩ : Particle).dy| ≤ 1 ∧
    (fun _ _ => false : ℤ → ℤ → Bool)
      (ratTrunc (Particle.simulate (fun _ _ => false)
        ⟨true, 1 / 2, 1 / 2, 0, 0, 1 / 2, 3⟩).1.x)
      (ratTrunc (Particle.simulate (fun _ _ => false)
        ⟨true, 1 / 2, 1 / 2, 0, 0, 1 / 2, 3⟩).1.y) = false :=
  ⟨rfl, by norm_num, by norm_num,
   c2_no_overlap (fun _ _ => false) ⟨true, 1 / 2, 1 / 2, 0, 0, 1 / 2, 3⟩ rfl
     (by norm_num) (by norm_num) (by simp)⟩

/-- The 4x4 static-mass grid of the C2 counterexample: one grain at `(1, 1)`. -/
def c2grid : StaticParticles :=
  ⟨[0, 0, 0, 0, 0, 5, 0, 0, 0, 0, 0, 0, 0, 0, 0, 0], 4, 4, 0⟩

/-- The composed obstacle query of the C2 counterexample, exactly as built by
`PopClock::simulate` (walls, static mass, clock; no dropout, clock empty). -/
def c2obs : ℤ → ℤ → Bool := popClockObstacle 4 4 false c2grid (fun _ _ => false)

/-- The particle of the C2 counterexample: starts free at `(0.5, 0.5)` and
moves diagonally by `(0.6, 0.6)` into the occupied cell `(1, 1)`. -/
def c2p : Particle := ⟨true, 1 / 2, 1 / 2, 3 / 5, 3 / 5, 9 / 10, 7⟩

/-- C2 counterexample: with the composed obstacle query, a particle that was
not inside an occupied cell and moves with `|dx|, |dy| ≤ 1` ends the step
inside the occupied static-mass cell `(1, 1)` — the diagonal corner case is
not resolved, so collision resolution is not exhaustive. -/
theorem c2_counterexample :
    c2obs (ratTrunc c2p.x) (ratTrunc c2p.y) = false ∧
    |c2p.dx| ≤ 1 ∧ |c2p.dy| ≤ 1 ∧
    c2obs (ratTrunc (Particle.simulate c2obs c2p).1.x)
      (ratTrunc (Particle.simulate c2obs c2p).1.y) = true := by
  have t0x : ratTrunc c2p.x = 0 := by
    unfold c2p
    norm_num [ratTrunc]
  have t0y : ratTrunc c2p.y = 0 := by
    unfold c2p
    norm_num [ratTrunc]
  have t1x : ratTrunc (c2p.x + c2p.dx) = 1 := by
    unfold c2p
    norm_num [ratTrunc]
  have t1y : ratTrunc (c2p.y + c2p.dy) = 1 := by
    unfold c2p
    norm_num [ratTrunc]
  have o11 : c2obs 1 1 = true := by decide
  have o10 : c2obs 1 0 = false := by decide
  have o01 : c2obs 0 1 = false := by decide
  have o00 : c2obs 0 0 = false := by decide
  refine ⟨by rw [t0x, t0y]; exact o00, ?_, ?_, ?_⟩
  · unfold c2p
    rw [show (⟨true, 1 / 2, 1 / 2, 3 / 5, 3 / 5, 9 / 10, 7⟩ : Particle).dx = 3 / 5 from rfl,
      abs_of_nonneg (by norm_num : (0:ℚ) ≤ 3 / 5)]
    norm_num
  · unfold c2p
    rw [show (⟨true, 1 / 2, 1 / 2, 3 / 5, 3 / 5, 9 / 10, 7⟩ : Particle).dy = 3 / 5 from rfl,
      abs_of_nonneg (by norm_num : (0:ℚ) ≤ 3 / 5)]
    norm_num
  · unfold Particle.simulate
    dsimp only
    rw [t1x, t1y, t0x, t0y, o11, o10, o01]
    simp only [Bool.true_and, Bool.and_false]
    rw [if_neg (by simp : ¬(false = true)), if_neg (by simp : ¬(false = true)), t1x, t1y]
    exact o11

/-- C4 counterexample: a grain on the bottom row coincident with a solid
obstacle reading survives an automaton pass with `drop_bottom = false`
(the pass never visits the bottom row), refuting crush for every
`drop_bottom` and cursor state. -/
theorem c4_counterexample :
    (⟨[0, 5], 1, 2, 0⟩ : StaticParticles).get 0 1 ≠ 0 ∧
    (fun _ _ => true : ℤ → ℤ → Bool) 0 1 = true ∧
    (StaticParticles.simulate ⟨[], false, ⟨fun _ => 0, fun _ => false, 0⟩⟩
        ⟨[0, 5], 1, 2, 0⟩ false (fun _ _ => true)).2.1.get 0 1 ≠ 0 := by
  refine ⟨by decide, rfl, ?_⟩
  decide

/-- C4 (amended): a cell holding nonzero mass while the obstacle mask is
solid there is zero after the next `StaticParticles::simulate` pass,
provided the pass actually visits its row: the dirty cursor starts at or
above the row, and the row is above the bottom row unless `drop_bottom`. -/
theorem c4_crush (h : PopClock) (sp : StaticParticles) (obs : ℤ → ℤ → Bool)
    (db : Bool) (x y : ℤ)
    (hx : 0 ≤ x) (hxw : x < sp.w_) (hy : 0 ≤ y)
    (hobs : obs x y = true)
    (hcur : sp.needs_sim_up_to ≤ y)
    (hrow : y ≤ sp.h_ - (if db then 1 else 2)) :
    (StaticParticles.simulate h sp db obs).2.1.get x y = 0 := by
  have hyh : y < sp.h_ := by
    cases db <;> simp at hrow <;> omega
  unfold StaticParticles.simulate
  dsimp only
  refine foldl_establish
    (fun st => st.2.1.w_ = sp.w_ ∧ st.2.1.h_ = sp.h_)
    (fun st => st.2.1.get x y = 0)
    (simStep obs db) (x, y) ?_ ?_ ?_ _ ?_ _ ?_
  · intro s b hi
    rcases simStep_grid_or obs db s b with he | he
    · rw [he]
      exact hi
    · rw [he, StaticParticles.set_w, StaticParticles.set_h]
      exact hi
  · intro s hi
    unfold simStep
    dsimp only
    by_cases hh : 0 < s.2.1.unsafe_at x y
    · rw [if_pos hh]
      have hone : StaticParticles.simulate_one s.1 s.2.1 obs db x y
          (s.2.1.unsafe_at x y) = (s.1, s.2.1.set x y 0, true) := by
        unfold StaticParticles.simulate_one
        rw [if_pos hobs]
      dsimp only
      rw [hone]
      dsimp only
      exact s.2.1.get_set_self 0 hx (hi.1 ▸ hxw) hy (hi.2 ▸ hyh)
        (s.2.1.unsafe_at_lt_length (by omega))
    · rw [if_neg hh]
      rw [s.2.1.get_eq_unsafe_at hx (hi.1 ▸ hxw) hy (hi.2 ▸ hyh)]
      omega
  · intro s b hi hp
    rcases simStep_grid_or obs db s b with he | he
    · rw [he]
      exact hp
    · rw [he]
      rcases s.2.1.get_set_zero_or b.1 b.2 x y with h2 | h2
    
      · rw [h2]
        exact hp
      · exact h2
  · rw [mem_pairList]
    constructor
    · rw [mem_intRangeDown]
      omega
    · rw [mem_intRangeUp]
      omega
  · exact ⟨rfl, rfl⟩

/-- Witness for C4 at a concrete crushed cell. -/
theorem c4_crush_witness :
    ((0:ℤ) ≤ 0 ∧ (0:ℤ) < (⟨[0, 4, 0], 1, 3, 0⟩ : StaticParticles).w_ ∧
      (0:ℤ) ≤ 1 ∧ (fun _ _ => true : ℤ → ℤ → Bool) 0 1 = true ∧
      (⟨[0, 4, 0], 1, 3, 0⟩ : StaticParticles).needs_sim_up_to ≤ 1 ∧
      (1:ℤ) ≤ (⟨[0, 4, 0], 1, 3, 0⟩ : StaticParticles).h_ -
        (if (false : Bool) then 1 else 2)) ∧
    (StaticParticles.simulate ⟨[], false, ⟨fun _ => 0, fun _ => false, 0⟩⟩
        ⟨[0, 4, 0], 1, 3, 0⟩ false (fun _ _ => true)).2.1.get 0 1 = 0 :=
  ⟨⟨by decide, by decide, by decide, rfl, by decide, by decide⟩,
   c4_crush ⟨[], false, ⟨fun _ => 0, fun _ => false, 0⟩⟩ ⟨[0, 4, 0], 1, 3, 0⟩
     (fun _ _ => true) false 0 1 (by decide) (by decide) (by decide) rfl
     (by decide) (by decide)⟩

lemma foldl_fixed {σ α : Type} (f : σ → α → σ) (s : σ) :
    ∀ l : List α, (∀ a ∈ l, f s a = s) → l.foldl f s = s := by
  intro l
  induction l with
  | nil => intro _; rfl
  | cons a t ih =>
    intro hstep
    rw [List.foldl_cons, hstep a (List.mem_cons_self a t)]
    exact ih (fun b hb => hstep b (List.mem_cons_of_mem a hb))

/-- C6: on a stable configuration — no occupied cell is crushed by the
obstacle mask, and no occupied cell has an empty, unobstructed in-grid cell
directly below or diagonally below — `StaticParticles::simulate` with
`drop_bottom = false` changes no grid cell, allocates no particle, and
returns `false`, for every (reachable, i.e. nonnegative) dirty-cursor
value; only the cursor is reset to its idle value. -/
theorem c6_stable_noop (h : PopClock) (sp : StaticParticles) (obs : ℤ → ℤ → Bool)
    (hcur : 0 ≤ sp.needs_sim_up_to)
    (hstab : ∀ x y : ℤ, 0 ≤ x → x < sp.w_ → 0 ≤ y → y < sp.h_ →
      sp.get x y ≠ 0 →
      obs x y = false ∧
      (y + 1 < sp.h_ →
        (sp.get x (y + 1) = 0 → obs x (y + 1) = true) ∧
        (0 < x → sp.get (x - 1) (y + 1) = 0 → obs (x - 1) (y + 1) = true) ∧
        (x < sp.w_ - 1 → sp.get (x + 1) (y + 1) = 0 → obs (x + 1) (y + 1) = true))) :
    StaticParticles.simulate h sp false obs =
      (h, { sp with needs_sim_up_to := sp.h_ }, false) := by
  unfold StaticParticles.simulate
  dsimp only
  refine foldl_fixed _ _ _ ?_
  rintro ⟨px, py⟩ hmem
  rw [mem_pairList] at hmem
  obtain ⟨hpy, hpx⟩ := hmem
  rw [mem_intRangeDown] at hpy
  rw [mem_intRangeUp] at hpx
  have hx0 : 0 ≤ px := hpx.1
  have hxw : px < sp.w_ := hpx.2
  have hy0 : 0 ≤ py := by
    rcases hpy with ⟨h1, h2⟩
    simp only [Bool.false_eq_true, if_false] at h1 h2
    omega
  have hyh : py + 1 < sp.h_ := by
    rcases hpy with ⟨h1, h2⟩
    simp only [Bool.false_eq_true, if_false] at h1 h2
    omega
  unfold simStep
  dsimp only
  have hupd : ∀ a b : ℤ, ({ sp with needs_sim_up_to := sp.h_ } :
      StaticParticles).unsafe_at a b = sp.unsafe_at a b := fun _ _ => rfl
  rw [hupd]
  by_cases hh : 0 < sp.unsafe_at px py
  · rw [if_pos hh]
    have hocc : sp.get px py ≠ 0 := by
      rw [sp.get_eq_unsafe_at hx0 hxw hy0 (by omega)]
      omega
    obtain ⟨hobs, hbelow⟩ := hstab px py hx0 hxw hy0 (by omega) hocc
    obtain ⟨hdown, hdl, hdr⟩ := hbelow hyh
    have hone : StaticParticles.simulate_one h { sp with needs_sim_up_to := sp.h_ }
        obs false px py (sp.unsafe_at px py) =
        (h, { sp with needs_sim_up_to := sp.h_ }, false) := by
      unfold StaticParticles.simulate_one
      dsimp only
      simp only [show ∀ a b : ℤ, (({ sp with needs_sim_up_to := sp.h_ }) :
        StaticParticles).get a b = sp.get a b from fun _ _ => rfl]
      rw [if_neg (by rw [hobs]; simp)]
      rw [if_neg (by omega : ¬sp.h_ ≤ py + 1)]
      have hfall : (decide (sp.get px (py + 1) = 0) && !(obs px (py + 1))) = false := by
        by_cases hg : sp.get px (py + 1) = 0
        · rw [hdown hg]
          simp [hg]
        · simp [hg]
      rw [hfall, if_neg (by simp)]
      have hleft : (decide (sp.get (px - 1) (py + 1) = 0) &&
          !(if px = 0 then true else obs (px - 1) (py + 1))) = false := by
        by_cases hz : px = 0
        · rw [if_pos hz]
          simp
        · rw [if_neg hz]
          by_cases hg : sp.get (px - 1) (py + 1) = 0
          · rw [hdl (by omega) hg]
            simp [hg]
          · simp [hg]
      have hright : (decide (sp.get (px + 1) (py + 1) = 0) &&
          !(if px = sp.w_ - 1 then true else obs (px + 1) (py + 1))) = false := by
        by_cases hz : px = sp.w_ - 1
        · rw [if_pos hz]
          simp
        · rw [if_neg hz]
          by_cases hg : sp.get (px + 1) (py + 1) = 0
          · rw [hdr (by omega) hg]
            simp [hg]
          · simp [hg]
      rw [hleft, hright]
      rw [if_neg (by simp), if_neg (by simp)]
    rw [hone]
    rfl
  · rw [if_neg hh]

/-- Witness for C6: a full bottom row under an empty obstacle mask is
stable, and the pass leaves everything except the cursor unchanged. -/
theorem c6_stable_noop_witness :
    ((0:ℤ) ≤ (⟨[0, 0, 5, 5], 2, 2, 0⟩ : StaticParticles).needs_sim_up_to) ∧
    StaticParticles.simulate ⟨[], false, ⟨fun _ => 0, fun _ => false, 0⟩⟩
        ⟨[0, 0, 5, 5], 2, 2, 0⟩ false (fun _ _ => false) =
      (⟨[], false, ⟨fun _ => 0, fun _ => false, 0⟩⟩, ⟨[0, 0, 5, 5], 2, 2, 2⟩, false) :=
  ⟨by decide,
   c6_stable_noop ⟨[], false, ⟨fun _ => 0, fun _ => false, 0⟩⟩
     ⟨[0, 0, 5, 5], 2, 2, 0⟩ (fun _ _ => false) (by decide)
     (by
       intro x y hx hxw hy hyh hocc
       have hxw2 : x < 2 := hxw
       have hyh2 : y < 2 := hyh
       interval_cases x <;> interval_cases y <;>
         first
         | exact absurd (by decide) hocc
         | exact ⟨rfl, fun h2 => absurd h2 (by decide)⟩)⟩

/-- C3 counterexample: on the 3-wide, 2-tall grid with one grain of color 7
at `(1, 0)`, no obstacle and no `drop_bottom`, one automaton pass does NOT
move the grain's color to `(1, 1)` — the grain is converted into a dynamic
particle instead and the whole grid is left empty. -/
theorem c3_counterexample :
    ¬((StaticParticles.simulate ⟨[], false, ⟨fun _ => 0, fun _ => false, 0⟩⟩
          ⟨[0, 7, 0, 0, 0, 0], 3, 2, 0⟩ false (fun _ _ => false)).2.1.get 1 0 = 0 ∧
      (StaticParticles.simulate ⟨[], false, ⟨fun _ => 0, fun _ => false, 0⟩⟩
          ⟨[0, 7, 0, 0, 0, 0], 3, 2, 0⟩ false (fun _ _ => false)).2.1.get 1 1 = 7) := by
  intro hcl
  exact absurd hcl.2 (by decide)

/-- C3 (amended): on that scenario, one automaton pass empties `(1, 0)`,
leaves `(1, 1)` (and the whole grid) empty, reports a change, and spawns
exactly one new dynamic particle — active at position `(1, 0)` with the
grain's color and a downward (nonnegative) vertical velocity; the grain
only reaches `(1, 1)` on later driver ticks when that particle settles. -/
theorem c3_straight_fall (r : RNG) (c : ℕ) (hc : c ≠ 0) :
    (StaticParticles.simulate ⟨[], false, r⟩ ⟨[0, c, 0, 0, 0, 0], 3, 2, 0⟩
        false (fun _ _ => false)).2.1.color_ = [0, 0, 0, 0, 0, 0] ∧
    (StaticParticles.simulate ⟨[], false, r⟩ ⟨[0, c, 0, 0, 0, 0], 3, 2, 0⟩
        false (fun _ _ => false)).2.2 = true ∧
    ∃ p, (StaticParticles.simulate ⟨[], false, r⟩ ⟨[0, c, 0, 0, 0, 0], 3, 2, 0⟩
        false (fun _ _ => false)).1.particles = [p] ∧
      p.active = true ∧ p.x = 1 ∧ p.y = 0 ∧ p.color = c ∧ 0 ≤ p.dy := by
  have hpos : 0 < c := Nat.pos_of_ne_zero hc
  have h0 : StaticParticles.simulate ⟨[], false, r⟩ ⟨[0, c, 0, 0, 0, 0], 3, 2, 0⟩
      false (fun _ _ => false) =
      List.foldl (simStep (fun _ _ => false) false)
        (⟨[], false, r⟩, ⟨[0, c, 0, 0, 0, 0], 3, 2, 2⟩, false)
        [(0, 0), (1, 0), (2, 0)] := rfl
  have h1 : simStep (fun _ _ => false) false
      (⟨[], false, r⟩, ⟨[0, c, 0, 0, 0, 0], 3, 2, 2⟩, false) (0, 0) =
      (⟨[], false, r⟩, ⟨[0, c, 0, 0, 0, 0], 3, 2, 2⟩, false) := rfl
  have h2 : simStep (fun _ _ => false) false
      (⟨[], false, r⟩, ⟨[0, c, 0, 0, 0, 0], 3, 2, 2⟩, false) (1, 0) =
      (⟨[{ { (Particle.pop r ((1 : ℤ) : ℚ) ((0 : ℤ) : ℚ) c).1 with
              dy := |(Particle.pop r ((1 : ℤ) : ℚ) ((0 : ℤ) : ℚ) c).1.dy| } with
            dx := { (Particle.pop r ((1 : ℤ) : ℚ) ((0 : ℤ) : ℚ) c).1 with
              dy := |(Particle.pop r ((1 : ℤ) : ℚ) ((0 : ℤ) : ℚ) c).1.dy| }.dx * (1 / 4) }],
        true, (Particle.pop r ((1 : ℤ) : ℚ) ((0 : ℤ) : ℚ) c).2⟩,
       ⟨[0, 0, 0, 0, 0, 0], 3, 2, 0⟩, true) := by
    unfold simStep
    dsimp only
    rw [show (⟨[0, c, 0, 0, 0, 0], 3, 2, 2⟩ : StaticParticles).unsafe_at 1 0 = c from rfl]
    rw [if_pos hpos]
    rfl
  rw [h0]
  simp only [List.foldl_cons, List.foldl_nil]
  rw [h1, h2]
  have h3 : simStep (fun _ _ => false) false
      (⟨[{ { (Particle.pop r ((1 : ℤ) : ℚ) ((0 : ℤ) : ℚ) c).1 with
              dy := |(Particle.pop r ((1 : ℤ) : ℚ) ((0 : ℤ) : ℚ) c).1.dy| } with
            dx := { (Particle.pop r ((1 : ℤ) : ℚ) ((0 : ℤ) : ℚ) c).1 with
              dy := |(Particle.pop r ((1 : ℤ) : ℚ) ((0 : ℤ) : ℚ) c).1.dy| }.dx * (1 / 4) }],
        true, (Particle.pop r ((1 : ℤ) : ℚ) ((0 : ℤ) : ℚ) c).2⟩,
       ⟨[0, 0, 0, 0, 0, 0], 3, 2, 0⟩, true) (2, 0) =
      (⟨[{ { (Particle.pop r ((1 : ℤ) : ℚ) ((0 : ℤ) : ℚ) c).1 with
              dy := |(Particle.pop r ((1 : ℤ) : ℚ) ((0 : ℤ) : ℚ) c).1.dy| } with
            dx := { (Particle.pop r ((1 : ℤ) : ℚ) ((0 : ℤ) : ℚ) c).1 with
              dy := |(Particle.pop r ((1 : ℤ) : ℚ) ((0 : ℤ) : ℚ) c).1.dy| }.dx * (1 / 4) }],
        true, (Particle.pop r ((1 : ℤ) : ℚ) ((0 : ℤ) : ℚ) c).2⟩,
       ⟨[0, 0, 0, 0, 0, 0], 3, 2, 0⟩, true) := rfl
  rw [h3]
  refine ⟨rfl, rfl, ?_⟩
  refine ⟨_, rfl, rfl, ?_, ?_, rfl, ?_⟩
  · show ((1 : ℤ) : ℚ) = 1
    norm_num
  · show ((0 : ℤ) : ℚ) = 0
    norm_num
  · show (0 : ℚ) ≤ |(Particle.pop r ((1 : ℤ) : ℚ) ((0 : ℤ) : ℚ) c).1.dy|
    exact abs_nonneg _

/-- Witness for C3 (amended) at a concrete RNG and color. -/
theorem c3_straight_fall_witness :
    (7 : ℕ) ≠ 0 ∧
    ((StaticParticles.simulate ⟨[], false, ⟨fun _ => 1 / 2, fun _ => false, 0⟩⟩
        ⟨[0, 7, 0, 0, 0, 0], 3, 2, 0⟩ false (fun _ _ => false)).2.1.color_ =
        [0, 0, 0, 0, 0, 0] ∧
      (StaticParticles.simulate ⟨[], false, ⟨fun _ => 1 / 2, fun _ => false, 0⟩⟩
          ⟨[0, 7, 0, 0, 0, 0], 3, 2, 0⟩ false (fun _ _ => false)).2.2 = true ∧
      ∃ p, (StaticParticles.simulate ⟨[], false, ⟨fun _ => 1 / 2, fun _ => false, 0⟩⟩
          ⟨[0, 7, 0, 0, 0, 0], 3, 2, 0⟩ false (fun _ _ => false)).1.particles = [p] ∧
        p.active = true ∧ p.x = 1 ∧ p.y = 0 ∧ p.color = 7 ∧ 0 ≤ p.dy) :=
  ⟨by decide, c3_straight_fall ⟨fun _ => 1 / 2, fun _ => false, 0⟩ 7 (by decide)⟩

/-! ### Spec-side model of the full-mass eruption -/

/-- Modelled from the spec (§4.4 full-mass eruption): the occupied cells of
the grid, in scan order, each paired with its color. -/
def specOccupiedCells (l : List (ℤ × ℤ)) (sp : StaticParticles) : List (ℤ × ℤ × ℕ) :=
  l.filterMap (fun q =>
    if sp.get q.1 q.2 = 0 then none else some (q.1, q.2, sp.get q.1 q.2))

/-- Modelled from the spec (§4.4 full-mass eruption): one plain `pop` per
occupied cell, threading the random source, with no forced vertical or
horizontal velocity bias. -/
def specPopsPerCell : RNG → List (ℤ × ℤ × ℕ) → List Particle × RNG
  | r, [] => ([], r)
  | r, (x, y, c) :: t =>
    let pr := Particle.pop r (x : ℚ) (y : ℚ) c
    let rest := specPopsPerCell pr.2 t
    (pr.1 :: rest.1, rest.2)

lemma specPopsPerCell_length (r : RNG) (cells : List (ℤ × ℤ × ℕ)) :
    (specPopsPerCell r cells).1.length = cells.length := by
  induction cells generalizing r with
  | nil => rfl
  | cons a t ih =>
    obtain ⟨x, y, c⟩ := a
    unfold specPopsPerCell
    dsimp only
    rw [List.length_cons, List.length_cons, ih]

lemma specPopsPerCell_key (r : RNG) (cells : List (ℤ × ℤ × ℕ)) :
    (specPopsPerCell r cells).1.map (fun p => (p.active, p.x, p.y, p.color)) =
      cells.map (fun t => (true, (t.1 : ℚ), (t.2.1 : ℚ), t.2.2)) := by
  induction cells generalizing r with
  | nil => rfl
  | cons a t ih =>
    obtain ⟨x, y, c⟩ := a
    unfold specPopsPerCell
    dsimp only
    rw [List.map_cons, List.map_cons, ih]
    rfl

lemma specOccupiedCells_congr (l : List (ℤ × ℤ)) (sp1 sp2 : StaticParticles)
    (h : ∀ q ∈ l, sp1.get q.1 q.2 = sp2.get q.1 q.2) :
    specOccupiedCells l sp1 = specOccupiedCells l sp2 := by
  induction l with
  | nil => rfl
  | cons q t ih =>
    unfold specOccupiedCells
    rw [List.filterMap_cons, List.filterMap_cons]
    have hq := h q (List.mem_cons_self q t)
    rw [hq]
    have ht : specOccupiedCells t sp1 = specOccupiedCells t sp2 :=
      ih (fun b hb => h b (List.mem_cons_of_mem q hb))
    unfold specOccupiedCells at ht
    rw [ht]

/-- The `pop_all` scan in closed form: it appends exactly one plain pop per
occupied cell (in scan order, threading the RNG) and zeroes the scanned
cells. -/
lemma popAllFold_spec (w hh : ℤ) :
    ∀ (l : List (ℤ × ℤ)), l.Nodup →
      (∀ q ∈ l, 0 ≤ q.1 ∧ q.1 < w ∧ 0 ≤ q.2 ∧ q.2 < hh) →
      ∀ (h : PopClock) (sp : StaticParticles), sp.w_ = w → sp.h_ = hh →
      (l.foldl popAllStep (h, sp)).1.particles =
          h.particles ++ (specPopsPerCell h.rng (specOccupiedCells l sp)).1 ∧
      (l.foldl popAllStep (h, sp)).1.rng =
          (specPopsPerCell h.rng (specOccupiedCells l sp)).2 ∧
      (∀ a b : ℤ, (l.foldl popAllStep (h, sp)).2.get a b =
          if (a, b) ∈ l then 0 else sp.get a b) := by
  intro l
  induction l with
  | nil =>
    intro _ _ h sp _ _
    refine ⟨by simp [specOccupiedCells, specPopsPerCell], ?_, ?_⟩
    · simp [specOccupiedCells, specPopsPerCell]
    · intro a b
      simp
  | cons q t ih =>
    intro hnd hb h sp hw hhh
    have hqb := hb q (List.mem_cons_self q t)
    have hxw : q.1 < sp.w_ := by omega
    have hyh : q.2 < sp.h_ := by omega
    have hg : sp.get q.1 q.2 = sp.unsafe_at q.1 q.2 :=
      sp.get_eq_unsafe_at hqb.1 hxw hqb.2.2.1 hyh
    rw [List.foldl_cons]
    by_cases hz : sp.unsafe_at q.1 q.2 = 0
    · have hz' : sp.get q.1 q.2 = 0 := by rw [hg, hz]
      have hstep : popAllStep (h, sp) q = (h, sp) := by
        unfold popAllStep
        rw [if_neg (show ¬(0 < (h, sp).2.unsafe_at q.1 q.2) from
          (by omega : ¬(0 < sp.unsafe_at q.1 q.2)))]
      rw [hstep]
      have hocc : specOccupiedCells (q :: t) sp = specOccupiedCells t sp := by
        unfold specOccupiedCells
        rw [List.filterMap_cons]
        rw [if_pos hz']
      obtain ⟨ih1, ih2, ih3⟩ := ih (List.Nodup.of_cons hnd)
        (fun b hb' => hb b (List.mem_cons_of_mem q hb')) h sp hw hhh
      refine ⟨by rw [hocc]; exact ih1, by rw [hocc]; exact ih2, ?_⟩
      intro a b
      rw [ih3 a b]
      by_cases hmem : (a, b) ∈ t
      · rw [if_pos hmem, if_pos (List.mem_cons_of_mem q hmem)]
      · rw [if_neg hmem]
        by_cases heq : (a, b) = q
        · rw [if_pos (heq ▸ List.mem_cons_self q t)]
          have : sp.get a b = 0 := by
            rw [show a = q.1 from congrArg Prod.fst heq,
              show b = q.2 from congrArg Prod.snd heq]
            exact hz'
          exact this
        · rw [if_neg (by
            intro hc
            rcases List.mem_cons.mp hc with h1 | h1
            · exact heq h1
            · exact hmem h1)]
    · have hpos : 0 < sp.unsafe_at q.1 q.2 := by omega
      have hstep : popAllStep (h, sp) q =
          ({ particles := h.particles ++
              [(Particle.pop h.rng (q.1 : ℚ) (q.2 : ℚ) (sp.unsafe_at q.1 q.2)).1],
             have_live_particles := true,
             rng := (Particle.pop h.rng (q.1 : ℚ) (q.2 : ℚ) (sp.unsafe_at q.1 q.2)).2 },
           sp.set q.1 q.2 0) := by
        unfold popAllStep
        rw [if_pos (show 0 < (h, sp).2.unsafe_at q.1 q.2 from hpos)]
        rw [tryPop_eq]
        rfl
      rw [hstep]
      have hset_get : ∀ b' ∈ t, (sp.set q.1 q.2 0).get b'.1 b'.2 = sp.get b'.1 b'.2 := by
        intro b' hb'
        refine sp.get_set_ne 0 hqb.1 hxw hqb.2.2.1 hyh ?_
        intro hc
        have : q = b' := Prod.ext hc.1 hc.2
        exact (List.nodup_cons.mp hnd).1 (this ▸ hb')
      have hocc : specOccupiedCells (q :: t) sp =
          (q.1, q.2, sp.get q.1 q.2) :: specOccupiedCells t sp := by
        unfold specOccupiedCells
        rw [List.filterMap_cons]
        rw [if_neg (by rw [hg]; exact hz)]
      have hocc2 : specOccupiedCells t (sp.set q.1 q.2 0) = specOccupiedCells t sp :=
        specOccupiedCells_congr t _ _ hset_get
      obtain ⟨ih1, ih2, ih3⟩ := ih (List.Nodup.of_cons hnd)
        (fun b hb' => hb b (List.mem_cons_of_mem q hb'))
        { particles := h.particles ++
            [(Particle.pop h.rng (q.1 : ℚ) (q.2 : ℚ) (sp.unsafe_at q.1 q.2)).1],
          have_live_particles := true,
          rng := (Particle.pop h.rng (q.1 : ℚ) (q.2 : ℚ) (sp.unsafe_at q.1 q.2)).2 }
        (sp.set q.1 q.2 0)
        (by rw [StaticParticles.set_w]; exact hw)
        (by rw [StaticParticles.set_h]; exact hhh)
      have hpops : specPopsPerCell h.rng ((q.1, q.2, sp.get q.1 q.2) ::
          specOccupiedCells t sp) =
          ((Particle.pop h.rng (q.1 : ℚ) (q.2 : ℚ) (sp.get q.1 q.2)).1 ::
            (specPopsPerCell (Particle.pop h.rng (q.1 : ℚ) (q.2 : ℚ)
              (sp.get q.1 q.2)).2 (specOccupiedCells t sp)).1,
           (specPopsPerCell (Particle.pop h.rng (q.1 : ℚ) (q.2 : ℚ)
              (sp.get q.1 q.2)).2 (specOccupiedCells t sp)).2) := rfl
      refine ⟨?_, ?_, ?_⟩
      · rw [ih1]
        dsimp only
        rw [hocc2, hocc, hpops, hg]
        rw [List.append_assoc]
        rfl
      · rw [ih2]
        dsimp only
        rw [hocc2, hocc, hpops, hg]
      · intro a b
        rw [ih3 a b]
        by_cases hmem : (a, b) ∈ t
        · rw [if_pos hmem, if_pos (List.mem_cons_of_mem q hmem)]
        · rw [if_neg hmem]
          by_cases heq : (a, b) = q
          · rw [if_pos (heq ▸ List.mem_cons_self q t)]
            rw [show a = q.1 from congrArg Prod.fst heq,
              show b = q.2 from congrArg Prod.snd heq]
            exact sp.get_set_self 0 hqb.1 hxw hqb.2.2.1 hyh
              (sp.unsafe_at_lt_length hz)
          · rw [if_neg (by
              intro hc
              rcases List.mem_cons.mp hc with h1 | h1
              · exact heq h1
              · exact hmem h1)]
            refine sp.get_set_ne 0 hqb.1 hxw hqb.2.2.1 hyh ?_
            intro hc
            exact heq (Prod.ext hc.1.symm hc.2.symm)

/-- C5: `StaticParticles::pop_all` converts the entire grid in one pass: it
allocates exactly one new active dynamic particle per occupied cell — a
plain `pop` at that cell with that cell's color and no forced vertical or
horizontal velocity bias (`specPopsPerCell` is nothing but the chain of
raw pops) — so exactly N particles for N occupied cells, and afterwards
every cell of the grid is zero. -/
theorem c5_pop_all_eruption (h : PopClock) (sp : StaticParticles) :
    (StaticParticles.pop_all h sp).1.particles =
      h.particles ++
        (specPopsPerCell h.rng (specOccupiedCells (allCells sp.w_ sp.h_) sp)).1 ∧
    (specPopsPerCell h.rng (specOccupiedCells (allCells sp.w_ sp.h_) sp)).1.length =
      (specOccupiedCells (allCells sp.w_ sp.h_) sp).length ∧
    ((specPopsPerCell h.rng (specOccupiedCells (allCells sp.w_ sp.h_) sp)).1.map
        (fun p => (p.active, p.x, p.y, p.color)) =
      (specOccupiedCells (allCells sp.w_ sp.h_) sp).map
        (fun t => (true, (t.1 : ℚ), (t.2.1 : ℚ), t.2.2))) ∧
    ∀ a b : ℤ, (StaticParticles.pop_all h sp).2.get a b = 0 := by
  obtain ⟨m1, _, m3⟩ := popAllFold_spec sp.w_ sp.h_ (allCells sp.w_ sp.h_)
    (nodup_allCells sp.w_ sp.h_)
    (fun q hq => mem_allCells.mp hq) h sp rfl rfl
  refine ⟨?_, specPopsPerCell_length _ _, specPopsPerCell_key _ _, ?_⟩
  · exact m1
  · intro a b
    have hbase : (StaticParticles.pop_all h sp).2.get a b =
        ((allCells sp.w_ sp.h_).foldl popAllStep (h, sp)).2.get a b := rfl
    rw [hbase, m3 a b]
    by_cases hm : (a, b) ∈ allCells sp.w_ sp.h_
    · rw [if_pos hm]
    · rw [if_neg hm]
      rw [mem_allCells] at hm
      unfold StaticParticles.get
      rw [if_pos (by
        dsimp only at hm
        omega)]
